import Mathlib

/-!
Verification of the audit-and-reconcile engine and its companions from the
in-situ data services repository, as a shallow embedding in Lean.

Embedded source files:
* `parquet_cli/audit_tool/audit_tool.py` : the `audit` function, its helpers
  `append_slash` and `key_to_sqs_msg`, and the surrounding side effects
  (S3 listing, OpenSearch lookups, file or SQS/SNS output, Lambda
  re-invocation) represented as an explicit ordered event trace.
* `parquet_flask/cdms_lambda_func/index_to_es/parquet_file_es_indexer.py` :
  `ParquetFileEsIndexer.start`, reduced to the catalog actions it performs.
* `parquet_flask/authenticator/authenticator_aws_secret_manager.py` :
  `AuthenticatorAwsSecretManager.authenticate` and the stored-token state.

External library calls (Python `json.dumps`, base64 decoding, the AWS and
OpenSearch clients) are modelled explicitly where their output shape matters
(`dumps`) and as abstract parameters where only success or failure matters
(the catalog lookup outcome, the base64 decoder).
-/

namespace AuditTool

/-- One listed S3 object; the source keeps whole listing dictionaries and
reads only their `Key` field, so the embedding keeps just that field. -/
structure S3Obj where
  key : String
deriving DecidableEq, Repr

instance : Inhabited S3Obj := ⟨⟨""⟩⟩

/-- Outcome of one `opensearch_client.get` call, as distinguished by the
per-item branch of `audit` (audit_tool.py lines 166-183):
a dict response marked found; a dict response with `found` false; a `None`
response; a non-dict response; a dict response lacking the `found` key
(reading it raises `KeyError`, caught by the generic handler); a raised
`NotFoundError`; any other raised exception. -/
inductive EsResp where
  | found
  | foundFalse
  | respNone
  | respNonDict
  | dictNoFoundKey
  | raiseNotFound
  | raiseOther
deriving DecidableEq, Repr

/-- Does this lookup outcome append the key to `missing_keys`?
Per the source: the explicit response checks (`None`, non-dict, `found`
false) and the `NotFoundError` handler append; the generic exception
handler (which also catches the `KeyError` from a dict lacking `found`)
only counts the error. -/
def isMissingResp : EsResp → Bool
  | .foundFalse => true
  | .respNone => true
  | .respNonDict => true
  | .raiseNotFound => true
  | _ => false

/-- Does this lookup outcome increment `error_count`? Every outcome other
than a found document does. -/
def isErrorCounted : EsResp → Bool
  | .found => false
  | _ => true

/-- JSON values as built by the source (only strings, arrays and objects
appear). -/
inductive Json where
  | str (s : String)
  | arr (xs : List Json)
  | obj (fields : List (String × Json))

/-- One hexadecimal digit, lowercase, as Python `json.dumps` prints them. -/
def hexDigit (n : Nat) : Char :=
  if n < 10 then Char.ofNat (48 + n) else Char.ofNat (87 + n)

/-- Four-digit lowercase hexadecimal, for `\uXXXX` escapes. -/
def hex4 (n : Nat) : String :=
  String.mk [hexDigit (n / 4096 % 16), hexDigit (n / 256 % 16),
             hexDigit (n / 16 % 16), hexDigit (n % 16)]

/-- Escape of a single character, following Python `json.dumps` defaults
(`ensure_ascii=True`): the two-character escapes for quote, backslash and
the common control characters, `\u00XX` for other control characters,
characters above 0x7e escaped as `\uXXXX`, with surrogate pairs beyond the
basic plane. -/
def jsonEscapeChar (c : Char) : String :=
  if c = '"' then "\\\""
  else if c = '\\' then "\\\\"
  else if c = '\n' then "\\n"
  else if c = '\r' then "\\r"
  else if c = '\t' then "\\t"
  else if c.toNat = 8 then "\\b"
  else if c.toNat = 12 then "\\f"
  else if c.toNat < 32 then "\\u" ++ hex4 c.toNat
  else if c.toNat < 127 then String.mk [c]
  else if c.toNat < 65536 then "\\u" ++ hex4 c.toNat
  else
    "\\u" ++ hex4 (55296 + (c.toNat - 65536) / 1024)
      ++ "\\u" ++ hex4 (56320 + (c.toNat - 65536) % 1024)

/-- Escape of a whole string for JSON serialization. -/
def jsonEscape (s : String) : String :=
  String.join (s.data.map jsonEscapeChar)

mutual

/-- Python `json.dumps` with default separators: `", "` between items and
`": "` between a key and its value. -/
def dumps : Json → String
  | Json.str s => "\"" ++ jsonEscape s ++ "\""
  | Json.arr xs => "[" ++ dumpsArr xs ++ "]"
  | Json.obj fs => "\x7b" ++ dumpsObj fs ++ "\x7d"

/-- Array elements joined by `", "`. -/
def dumpsArr : List Json → String
  | [] => ""
  | [x] => dumps x
  | x :: y :: rest => dumps x ++ ", " ++ dumpsArr (y :: rest)

/-- Object fields joined by `", "`, each key quoted and followed by `": "`. -/
def dumpsObj : List (String × Json) → String
  | [] => ""
  | [(k, v)] => "\"" ++ jsonEscape k ++ "\": " ++ dumps v
  | (k, v) :: y :: rest =>
      "\"" ++ jsonEscape k ++ "\": " ++ dumps v ++ ", " ++ dumpsObj (y :: rest)

end

/-- The synthetic S3 object-created event built by `key_to_sqs_msg`
(audit_tool.py lines 55-66), kept as a structured JSON value. -/
def s3EventJson (key : String) (bucket : String) : Json :=
  Json.obj [("Records", Json.arr [Json.obj [
    ("eventName", Json.str "ObjectCreated:Put"),
    ("s3", Json.obj [
      ("bucket", Json.obj [("name", Json.str bucket)]),
      ("object", Json.obj [("key", Json.str key)])])]])]

/-- `key_to_sqs_msg` (audit_tool.py lines 55-70): serialize the synthetic
event with `json.dumps`. -/
def key_to_sqs_msg (key : String) (bucket : String) : String :=
  dumps (s3EventJson key bucket)

/-- Digit grouping of Python format `..:,..`: commas every three digits from
the right. Input is the reversed digit list. -/
def commaChunks : List Char → List Char
  | [] => []
  | [a] => [a]
  | [a, b] => [a, b]
  | [a, b, c] => [a, b, c]
  | a :: b :: c :: d :: rest => a :: b :: c :: ',' :: commaChunks (d :: rest)

/-- Python `f-string` formatting of a natural number with the `,` option. -/
def commaFmt (n : Nat) : String :=
  String.mk ((commaChunks (toString n).data.reverse).reverse)

/-- Last character of a string, modelling Python `string[-1]` (only read on
nonempty strings in the source). -/
def lastChar (s : String) : Option Char :=
  s.data.getLast?

/-- `append_slash` (audit_tool.py lines 44-52): `None` passes through, the
empty string passes through, a string not ending in a slash gets one
appended, a string ending in a slash passes through. -/
def append_slash : Option String → Option String
  | none => none
  | some s =>
      if s = "" then some s
      else if lastChar s ≠ some '/' then some (s ++ "/")
      else some s

/-- The effective document-id prefix of a run: the source reads the
`OPENSEARCH_ID_PREFIX` environment value, defaulting to
`s3://<bucket>/` when the variable is unset, then applies `append_slash`
(audit_tool.py line 91). `none` models an unset variable. -/
def effIdPrefix (bucket : String) (envIdPrefix : Option String) : String :=
  (append_slash (some (envIdPrefix.getD ("s3://" ++ bucket ++ "/")))).getD ""

/-- The effective listing prefix: `append_slash` applied to the required
`OPENSEARCH_PATH_PREFIX` value (audit_tool.py line 89). -/
def effPathPrefix (pathPrefix : String) : String :=
  (append_slash (some pathPrefix)).getD ""

/-- Observable side effects of one `audit` run, in program order. -/
inductive Ev where
  | listObjects (bucket : String) (pathPre : String)
  | esGet (id : String)
  | fileWrite (path : String) (content : String)
  | sqsSend (queue : String) (body : String)
  | snsPublish (topic : String) (message : String) (subject : String)
  | invokeLambda (functionName : String) (payload : String)
deriving DecidableEq, Repr

/-- The bounded-time host context (`lambda_ctx`): a function name for
re-invocation and the value returned by the n-th call of
`get_remaining_time_in_millis`, one call per loop-boundary check. -/
structure LambdaCtx where
  function_name : String
  remaining : Nat → Nat

/-- The inputs of one `audit` run: the two positional arguments, the two
keyword arguments, the host context, and the environment-sourced
configuration the run reads (bucket, path prefix, raw id-prefix value). -/
structure AuditConfig where
  format : String
  output_file : Option String
  sns_topic : Option String
  resume_from_key : Option String
  lambda_ctx : Option LambdaCtx
  bucket : String
  pathPrefixEnv : String
  id_prefix_env : Option String

/-- Python truthiness of an optional string: `None` and the empty string
are falsy. -/
def pyTruthy : Option String → Bool
  | none => false
  | some s => s ≠ ""

/-- Python equality between the string resume cursor and one listed object:
the listing collects whole dictionaries (audit_tool.py line 143), and in
CPython a `str` never compares equal to a `dict`, so this is constantly
false. The resume membership test of line 145 is built from it. -/
def pyStrEqObj (_ : String) (_ : S3Obj) : Bool := false

/-- The resume slice start (audit_tool.py lines 145-150): if a resume
cursor is given and the membership test finds it among the listed objects,
start at its index, otherwise start at the beginning. -/
def startIndex (resume : Option String) (keys : List S3Obj) : Nat :=
  match resume with
  | none => 0
  | some k => if keys.any (pyStrEqObj k) then keys.findIdx (pyStrEqObj k) else 0

/-- State accumulated by the per-key loop (audit_tool.py lines 156-186):
processed count, error count, missing keys in scan order, the resume
cursor when the time budget forced a suspension, and the lookup events
issued. -/
structure LoopRes where
  count : Nat
  errorCount : Nat
  missing : List String
  resumeKey : Option String
  events : List Ev
deriving Repr

/-- The loop-boundary time check (audit_tool.py line 157): present host
context and remaining budget below 60 seconds. -/
def timeLow : Option LambdaCtx → Nat → Bool
  | none, _ => false
  | some c, i => decide (c.remaining i < 60 * 1000)

/-- The per-key loop of `audit` (audit_tool.py lines 156-186). At each
boundary the time check may suspend, recording the current key as the
resume cursor and touching nothing further. Otherwise the document id is
`OPENSEARCH_ID_PREFIX + obj["Key"]` (line 168; `os.path.join` with a
single argument returns it unchanged), the lookup runs, the counters and
the missing list are updated by outcome class. `i` counts the boundary
checks made so far. -/
def auditLoop (es : String → EsResp) (idPrefix : String)
    (ctx : Option LambdaCtx) : List S3Obj → Nat → LoopRes
  | [], _ => ⟨0, 0, [], none, []⟩
  | o :: rest, i =>
      if timeLow ctx i then
        ⟨0, 0, [], some o.key, []⟩
      else
        let docId := idPrefix ++ o.key
        let r := es docId
        let res := auditLoop es idPrefix ctx rest (i + 1)
        ⟨res.count + 1,
         res.errorCount + (if isErrorCounted r then 1 else 0),
         (if isMissingResp r then [o.key] else []) ++ res.missing,
         res.resumeKey,
         Ev.esGet docId :: res.events⟩

/-- The Result Sink (audit_tool.py lines 191-213). In `plain` format a
truthy output file receives every missing key followed by a newline;
otherwise the keys are only logged. In any other format each missing key
becomes one SQS message on the destination queue, in order, and a truthy
topic then receives one summary notification. -/
def sinkEvents (cfg : AuditConfig) (missing : List String) : List Ev :=
  if cfg.format = "plain" then
    if pyTruthy cfg.output_file then
      [Ev.fileWrite (cfg.output_file.getD "")
        (String.join (missing.map (fun k => k ++ "\n")))]
    else []
  else
    missing.map (fun k =>
      Ev.sqsSend (cfg.output_file.getD "") (key_to_sqs_msg k cfg.bucket))
    ++ (if pyTruthy cfg.sns_topic then
          [Ev.snsPublish (cfg.sns_topic.getD "")
            ("Parquet stats audit found " ++ commaFmt missing.length
              ++ " missing keys. Trying to republish to SQS.")
            "Insitu audit"]
        else [])

/-- The re-invocation step (audit_tool.py lines 215-222): when the loop
suspended, invoke the function named by the host context asynchronously
with the JSON payload carrying the resume cursor. -/
def invokeEvents (cfg : AuditConfig) (resumeKey : Option String) : List Ev :=
  match resumeKey with
  | none => []
  | some k =>
      match cfg.lambda_ctx with
      | none => []
      | some c =>
          [Ev.invokeLambda c.function_name
            (dumps (Json.obj [("ResumeFromKey", Json.str k)]))]

/-- The outputs of a completed `audit` run. -/
structure AuditOut where
  count : Nat
  errorCount : Nat
  missing : List String
  resumeKey : Option String
  events : List Ev
deriving DecidableEq, Repr

instance : DecidableEq (Except String AuditOut) :=
  fun a b =>
    match a, b with
    | Except.error x, Except.error y =>
        if h : x = y then Decidable.isTrue (by rw [h])
        else Decidable.isFalse (by intro hc; cases hc; exact h rfl)
    | Except.ok x, Except.ok y =>
        if h : x = y then Decidable.isTrue (by rw [h])
        else Decidable.isFalse (by intro hc; cases hc; exact h rfl)
    | Except.error _, Except.ok _ => Decidable.isFalse (by intro hc; cases hc)
    | Except.ok _, Except.error _ => Decidable.isFalse (by intro hc; cases hc)

/-- `audit` (audit_tool.py lines 73-222). The requeue-without-destination
guard of lines 74-75 raises before anything else happens; afterwards the
run lists the bucket under the effective path prefix, slices the listing
at the resume index, runs the per-key loop, hands the missing keys to the
Result Sink, and finally re-invokes itself when the loop suspended. The
catalog is the abstract lookup function `es` from document ids to
outcomes; the content of each listing page is flattened into `listing`. -/
def audit (cfg : AuditConfig) (es : String → EsResp) (listing : List S3Obj) :
    Except String AuditOut :=
  if cfg.format = "mock-s3" ∧ pyTruthy cfg.output_file = false then
    Except.error "Output file MUST be defined with mock-s3 output format"
  else
    let idPrefix := effIdPrefix cfg.bucket cfg.id_prefix_env
    let idx := startIndex cfg.resume_from_key listing
    let keys := listing.drop idx
    let lr := auditLoop es idPrefix cfg.lambda_ctx keys 0
    Except.ok
      { count := lr.count
        errorCount := lr.errorCount
        missing := lr.missing
        resumeKey := lr.resumeKey
        events := Ev.listObjects cfg.bucket (effPathPrefix cfg.pathPrefixEnv)
          :: lr.events ++ sinkEvents cfg lr.missing
          ++ invokeEvents cfg lr.resumeKey }

/-- A catalog in a definite state: a predicate on document ids; present
documents answer found, absent documents raise `NotFoundError` as the
OpenSearch get-by-id client does. -/
def catEs (cat : String → Bool) : String → EsResp :=
  fun id => if cat id then EsResp.found else EsResp.raiseNotFound

/-- The keys of `keys` whose lookup outcome appends to `missing_keys`, in
listing order. -/
def missingOf (es : String → EsResp) (p : String) (keys : List S3Obj) :
    List String :=
  (keys.filter (fun o => isMissingResp (es (p ++ o.key)))).map S3Obj.key

/-- The number of keys of `keys` whose lookup outcome counts as an error. -/
def errsOf (es : String → EsResp) (p : String) (keys : List S3Obj) : Nat :=
  keys.countP (fun o => isErrorCounted (es (p ++ o.key)))

end AuditTool

namespace Indexer

/-- Characters stripped by Python `str.strip()` with no argument (the ASCII
whitespace characters; event names in practice contain none of them). -/
def isPySpace (c : Char) : Bool :=
  c = ' ' || c = '\t' || c = '\n' || c = '\r' || c = '\x0b' || c = '\x0c'

/-- Python `str.strip()`: drop whitespace from both ends. -/
def pyStrip (s : String) : String :=
  String.mk (((s.data.dropWhile isPySpace).reverse.dropWhile isPySpace).reverse)

/-- Python `str.lower()` restricted to its ASCII action, which is all the
source event names exercise. -/
def pyLower (s : String) : String :=
  String.mk (s.data.map (fun c =>
    if 65 ≤ c.toNat ∧ c.toNat ≤ 90 then Char.ofNat (c.toNat + 32) else c))

/-- Python `str.startswith`. -/
def pyStartsWith (s pre : String) : Bool :=
  pre.data.isPrefixOf s.data

/-- Substring test on character lists, for Python `needle in haystack`. -/
def containsSub (needle : List Char) : List Char → Bool
  | [] => needle.isEmpty
  | c :: rest => needle.isPrefixOf (c :: rest) || containsSub needle rest

/-- Python `needle in haystack` on strings. -/
def pyInStr (needle hay : String) : Bool :=
  containsSub needle.data hay.data

/-- One record of the consumed event, as read through `S3ToSqs` (an external
collaborator): the object URL and the event name. -/
structure S3Record where
  s3_url : String
  eventName : String
deriving DecidableEq, Repr

/-- A catalog write performed by the indexer: `index_one` upserting the
document for a file (parquet_file_es_indexer.py line 67), or
`delete_by_id` with the file S3 URL as the id (line 73). -/
inductive EsAction where
  | indexOne (s3_url : String)
  | deleteById (id : String)
deriving DecidableEq, Repr

/-- The transient-path markers skipped by `start`
(parquet_file_es_indexer.py line 88). -/
def ignoring_phrases : List String := ["spark-staging", "_temporary"]

/-- `ParquetFileEsIndexer.start` (parquet_file_es_indexer.py lines 77-104)
reduced to the catalog actions it performs, in order: skip records whose
URL contains a transient marker, upsert on an event name starting with
`objectcreated` after strip and lower, delete by the URL on one starting
with `objectremoved`, and log-only otherwise. -/
def start : List S3Record → List EsAction
  | [] => []
  | r :: rest =>
      if ignoring_phrases.any (fun k => pyInStr k r.s3_url) then start rest
      else
        let s3_event := pyLower (pyStrip r.eventName)
        if pyStartsWith s3_event "objectcreated" then
          EsAction.indexOne r.s3_url :: start rest
        else if pyStartsWith s3_event "objectremoved" then
          EsAction.deleteById r.s3_url :: start rest
        else start rest

/-- The per-record behaviour as the specification words it: skipping
staging paths, upsert on creation, delete by URL on removal, no catalog
change otherwise. Written from the claim, to be compared with `start`. -/
def recordActionSpec (r : S3Record) : Option EsAction :=
  if ignoring_phrases.any (fun k => pyInStr k r.s3_url) then none
  else if pyStartsWith (pyLower (pyStrip r.eventName)) "objectcreated" then
    some (EsAction.indexOne r.s3_url)
  else if pyStartsWith (pyLower (pyStrip r.eventName)) "objectremoved" then
    some (EsAction.deleteById r.s3_url)
  else none

end Indexer

namespace Authenticator

/-- The mutable state of `AuthenticatorAwsSecretManager`: the stored token,
set to the empty string by `__init__`
(authenticator_aws_secret_manager.py line 30). -/
structure AuthState where
  token : String
deriving DecidableEq, Repr

/-- The state right after `__init__`. -/
def initState : AuthState := ⟨""⟩

/-- `authenticate` (authenticator_aws_secret_manager.py lines 43-52),
parameterized by the base64-decode-then-utf8-decode step, whose failure
(any exception, caught by the bare handler) is `none`. Returns the error
message, or `none` on success, together with the unchanged state: the
method assigns nothing. The `input` dictionary is an association list. -/
def authenticate (b64decode : String → Option String) (st : AuthState)
    (input : List (String × String)) : Option String × AuthState :=
  match input.lookup "Authorization" with
  | none => (some "missing key: Authorization", st)
  | some a =>
      match b64decode a with
      | none => (some "unable to base64 decode the value from Authorization", st)
      | some v =>
          if v ≠ st.token then
            (some "mismatch incoming base64 token vs existing token", st)
          else (none, st)

/-- `get_auth_credentials` (authenticator_aws_secret_manager.py lines
32-41). `outer` is the result of retrieving the secret, parsing it as JSON
and reading its `auth_cred` member, collapsed to `none` when any of those
steps raises; the source then requires the resulting value to hold an
`auth_cred` member of its own, stores it as the token, and returns the
value. On every failure path the stored token is untouched. -/
def get_auth_credentials (outer : Option (List (String × String)))
    (st : AuthState) : Except String (List (String × String)) × AuthState :=
  match outer with
  | none => (Except.error "error while retrieving secret manager value", st)
  | some secret_json =>
      match secret_json.lookup "auth_cred" with
      | none => (Except.error "invalid json. missing auth_cred", st)
      | some t => (Except.ok secret_json, ⟨t⟩)

end Authenticator

namespace AuditTool

/-- Concrete run configuration: report mode with destination file `F`. -/
def cfgPlainF : AuditConfig :=
  { format := "plain", output_file := some "F", sns_topic := none,
    resume_from_key := none, lambda_ctx := none,
    bucket := "B", pathPrefixEnv := "p", id_prefix_env := none }

/-- Concrete catalog containing only the document of key `b`. -/
def catOnlyB : String → Bool := fun id => id = "s3://B/b"

/-- Concrete run configuration: report mode, no destination. -/
def cfgPlainNoOut : AuditConfig :=
  { format := "plain", output_file := none, sns_topic := none,
    resume_from_key := none, lambda_ctx := none,
    bucket := "B", pathPrefixEnv := "p", id_prefix_env := none }

/-- Concrete run configuration: report mode with a resume cursor at `b`. -/
def cfgResumeB : AuditConfig :=
  { format := "plain", output_file := none, sns_topic := none,
    resume_from_key := some "b", lambda_ctx := none,
    bucket := "B", pathPrefixEnv := "p", id_prefix_env := none }

/-- Concrete bounded-time host: 100 seconds remain at the first boundary
check and nothing afterwards. -/
def ctxTight : LambdaCtx :=
  ⟨"auditFn", fun j => if j = 0 then 100000 else 0⟩

/-- Concrete run configuration under `ctxTight`, report mode to file `F`. -/
def cfgTimed : AuditConfig :=
  { format := "plain", output_file := some "F", sns_topic := none,
    resume_from_key := none, lambda_ctx := some ctxTight,
    bucket := "B", pathPrefixEnv := "p", id_prefix_env := none }

/-- Concrete run configuration: requeue mode, no destination. -/
def cfgRequeueNoDest : AuditConfig :=
  { format := "mock-s3", output_file := none, sns_topic := none,
    resume_from_key := none, lambda_ctx := none,
    bucket := "B", pathPrefixEnv := "p", id_prefix_env := none }

/-- Concrete run configuration: requeue mode to queue `Q` with topic `T`. -/
def cfgRequeueQ : AuditConfig :=
  { format := "mock-s3", output_file := some "Q", sns_topic := some "T",
    resume_from_key := none, lambda_ctx := none,
    bucket := "B", pathPrefixEnv := "p", id_prefix_env := none }

/-- A lookup function answering found on the document of key `a` and
raising a generic error elsewhere. -/
def esFoundAElseErr : String → EsResp :=
  fun id => if id = "s3://B/a" then EsResp.found else EsResp.raiseOther

/-- A lookup function answering found on the document of key `a` and
returning a `None` response elsewhere; it agrees with `esFoundAElseErr`
on the document of key `a` only. -/
def esFoundAElseNone : String → EsResp :=
  fun id => if id = "s3://B/a" then EsResp.found else EsResp.respNone

end AuditTool

namespace AuditTool

/-- With no host context the time check never fires. -/
theorem timeLow_none (i : Nat) : timeLow none i = false := rfl

/-- With no host context the loop processes every key: the count is the
length, the error count and missing keys are classified pointwise, no
resume cursor is produced, and one lookup event is issued per key in
listing order. -/
theorem auditLoop_no_ctx (es : String → EsResp) (p : String) :
    ∀ (keys : List S3Obj) (i : Nat),
      auditLoop es p none keys i =
        ⟨keys.length, errsOf es p keys, missingOf es p keys, none,
         keys.map (fun o => Ev.esGet (p ++ o.key))⟩ := by
  intro keys
  induction keys with
  | nil => intro i; simp [auditLoop, errsOf, missingOf]
  | cons o rest ih =>
      intro i
      by_cases h : isMissingResp (es (p ++ o.key)) <;>
        simp [auditLoop, timeLow_none, ih (i + 1), errsOf, missingOf,
          List.countP_cons, List.filter_cons, h]

/-- The loop only consults the lookup function at the document ids of the
keys it walks: two lookup functions agreeing there produce identical loop
results. -/
theorem auditLoop_congr (es1 es2 : String → EsResp) (p : String)
    (ctx : Option LambdaCtx) :
    ∀ (keys : List S3Obj) (i : Nat),
      (∀ o ∈ keys, es1 (p ++ o.key) = es2 (p ++ o.key)) →
      auditLoop es1 p ctx keys i = auditLoop es2 p ctx keys i := by
  intro keys
  induction keys with
  | nil => intro i _; rfl
  | cons o rest ih =>
      intro i h
      simp only [auditLoop]
      by_cases ht : timeLow ctx i
      · simp [ht]
      · have hhead := h o (List.mem_cons_self o rest)
        have htail := ih (i + 1) (fun x hx => h x (List.mem_cons_of_mem o hx))
        simp [ht, hhead, htail]

/-- A successful unsuspended run of `audit`, evaluated: the requeue guard
passes, the resume slice starts at the beginning, the loop walks the whole
listing, the sink receives the missing keys and no re-invocation happens. -/
theorem audit_ok_eval (cfg : AuditConfig) (es : String → EsResp)
    (listing : List S3Obj)
    (hguard : ¬(cfg.format = "mock-s3" ∧ pyTruthy cfg.output_file = false))
    (hres : cfg.resume_from_key = none) (hctx : cfg.lambda_ctx = none) :
    audit cfg es listing = Except.ok
      { count := listing.length
        errorCount := errsOf es (effIdPrefix cfg.bucket cfg.id_prefix_env) listing
        missing := missingOf es (effIdPrefix cfg.bucket cfg.id_prefix_env) listing
        resumeKey := none
        events := Ev.listObjects cfg.bucket (effPathPrefix cfg.pathPrefixEnv)
          :: (listing.map fun o =>
                Ev.esGet (effIdPrefix cfg.bucket cfg.id_prefix_env ++ o.key))
          ++ sinkEvents cfg
              (missingOf es (effIdPrefix cfg.bucket cfg.id_prefix_env) listing) } := by
  unfold audit
  rw [if_neg hguard, hres, hctx]
  simp only [startIndex, List.drop_zero,
    auditLoop_no_ctx es (effIdPrefix cfg.bucket cfg.id_prefix_env) listing 0]
  simp [invokeEvents]

/-- In a definite catalog state, the lookup outcome class of a document id
is exactly its absence from the catalog. -/
theorem isMissingResp_catEs (cat : String → Bool) (id : String) :
    isMissingResp (catEs cat id) = !cat id := by
  unfold catEs
  cases h : cat id <;> simp [h, isMissingResp]

/-- In a definite catalog state, the missing keys of a listing slice are
exactly the keys whose document is absent, in listing order. -/
theorem missingOf_catEs (cat : String → Bool) (p : String)
    (keys : List S3Obj) :
    missingOf (catEs cat) p keys =
      (keys.filter (fun o => !cat (p ++ o.key))).map S3Obj.key := by
  unfold missingOf
  congr 1
  apply List.filter_congr
  intro o _
  rw [isMissingResp_catEs]

/-- Report mode with a truthy destination writes one file holding every
missing key followed by a newline. -/
theorem sinkEvents_plain_file (cfg : AuditConfig) (missing : List String)
    (f : String) (hfmt : cfg.format = "plain") (hout : cfg.output_file = some f)
    (hf : f ≠ "") :
    sinkEvents cfg missing =
      [Ev.fileWrite f (String.join (missing.map (fun k => k ++ "\n")))] := by
  simp [sinkEvents, hfmt, hout, pyTruthy, hf]

/-- C1: for every finite listing and every definite catalog state, a single
uninterrupted run (no resume cursor, no host context) produces as
`MissingKeySet` exactly the listed keys whose catalog document is absent,
in listing order, and in report mode with a destination file the file
content is exactly those keys each followed by a newline. -/
theorem audit_uninterrupted_report (cfg : AuditConfig) (cat : String → Bool)
    (listing : List S3Obj) (f : String)
    (hfmt : cfg.format = "plain") (hout : cfg.output_file = some f)
    (hf : f ≠ "") (hres : cfg.resume_from_key = none)
    (hctx : cfg.lambda_ctx = none) :
    audit cfg (catEs cat) listing = Except.ok
      { count := listing.length
        errorCount := errsOf (catEs cat)
          (effIdPrefix cfg.bucket cfg.id_prefix_env) listing
        missing := (listing.filter (fun o =>
            !cat (effIdPrefix cfg.bucket cfg.id_prefix_env ++ o.key))).map S3Obj.key
        resumeKey := none
        events := Ev.listObjects cfg.bucket (effPathPrefix cfg.pathPrefixEnv)
          :: (listing.map fun o =>
                Ev.esGet (effIdPrefix cfg.bucket cfg.id_prefix_env ++ o.key))
          ++ [Ev.fileWrite f (String.join
              (((listing.filter (fun o =>
                  !cat (effIdPrefix cfg.bucket cfg.id_prefix_env ++ o.key))).map
                    S3Obj.key).map (fun k => k ++ "\n")))] } := by
  have hguard : ¬(cfg.format = "mock-s3" ∧ pyTruthy cfg.output_file = false) := by
    intro h
    rw [hfmt] at h
    exact absurd h.1 (by decide)
  rw [audit_ok_eval cfg (catEs cat) listing hguard hres hctx,
    sinkEvents_plain_file cfg _ f hfmt hout hf, missingOf_catEs]

/-- C1 witness: listing `[a, b, c, d]`, catalog holding only the document
of `b`, report mode to file `F`: the missing keys are `a, c, d` in order
and the file content is `a\nc\nd\n`. -/
theorem audit_uninterrupted_report_witness :
    audit cfgPlainF (catEs catOnlyB) [⟨"a"⟩, ⟨"b"⟩, ⟨"c"⟩, ⟨"d"⟩] = Except.ok
      { count := 4, errorCount := 3, missing := ["a", "c", "d"],
        resumeKey := none,
        events := [Ev.listObjects "B" "p/", Ev.esGet "s3://B/a",
          Ev.esGet "s3://B/b", Ev.esGet "s3://B/c", Ev.esGet "s3://B/d",
          Ev.fileWrite "F" "a\nc\nd\n"] } := by
  have h := audit_uninterrupted_report cfgPlainF catOnlyB
    [⟨"a"⟩, ⟨"b"⟩, ⟨"c"⟩, ⟨"d"⟩] "F" rfl rfl (by decide) rfl rfl
  rw [h]
  decide

/-- C2 counterexample: a key whose lookup raises a generic (non-NotFound)
exception is processed and counted as an error but does NOT appear in
`MissingKeySet`: the claim that every lookup failure of any kind lands in
the missing keys fails on this input. -/
theorem audit_generic_error_missing_cex :
    audit cfgPlainNoOut (fun _ => EsResp.raiseOther) [⟨"a"⟩] = Except.ok
      { count := 1, errorCount := 1, missing := [], resumeKey := none,
        events := [Ev.listObjects "B" "p/", Ev.esGet "s3://B/a"] }
    ∧ isMissingResp EsResp.raiseOther = false := by
  constructor
  · decide
  · rfl

/-- C2 amended: a listed key lands in `MissingKeySet`, exactly once per
occurrence, precisely when its lookup answers not-found: a raised
`NotFoundError`, a `None` response, a non-dict response, or a dict marked
not found. A lookup raising any other exception (including the `KeyError`
from a dict lacking the `found` flag) only increments the error count.
No failure aborts the scan: every listed key is processed. -/
theorem audit_error_classes (cfg : AuditConfig) (es : String → EsResp)
    (listing : List S3Obj)
    (hguard : ¬(cfg.format = "mock-s3" ∧ pyTruthy cfg.output_file = false))
    (hres : cfg.resume_from_key = none) (hctx : cfg.lambda_ctx = none) :
    (∃ out, audit cfg es listing = Except.ok out
      ∧ out.count = listing.length
      ∧ out.missing = (listing.filter (fun o =>
          isMissingResp (es (effIdPrefix cfg.bucket cfg.id_prefix_env
            ++ o.key)))).map S3Obj.key)
    ∧ isMissingResp EsResp.raiseNotFound = true
    ∧ isMissingResp EsResp.respNone = true
    ∧ isMissingResp EsResp.respNonDict = true
    ∧ isMissingResp EsResp.foundFalse = true
    ∧ isMissingResp EsResp.raiseOther = false
    ∧ isMissingResp EsResp.dictNoFoundKey = false := by
  refine ⟨⟨_, audit_ok_eval cfg es listing hguard hres hctx, rfl, rfl⟩,
    rfl, rfl, rfl, rfl, rfl, rfl⟩

/-- C2 amended witness: four keys with one outcome of each interesting
class: found, raised NotFoundError, generic exception, not-found dict. -/
theorem audit_error_classes_witness :
    ∃ out, audit cfgPlainNoOut
        (fun id => if id = "s3://B/a" then EsResp.found
          else if id = "s3://B/b" then EsResp.raiseNotFound
          else if id = "s3://B/c" then EsResp.raiseOther
          else EsResp.foundFalse)
        [⟨"a"⟩, ⟨"b"⟩, ⟨"c"⟩, ⟨"d"⟩] = Except.ok out
      ∧ out.count = 4 ∧ out.missing = ["b", "d"] := by
  obtain ⟨⟨out, hout, hcount, hmiss⟩, -⟩ := audit_error_classes cfgPlainNoOut
    (fun id => if id = "s3://B/a" then EsResp.found
      else if id = "s3://B/b" then EsResp.raiseNotFound
      else if id = "s3://B/c" then EsResp.raiseOther
      else EsResp.foundFalse)
    [⟨"a"⟩, ⟨"b"⟩, ⟨"c"⟩, ⟨"d"⟩]
    (by intro h; exact absurd h.1 (by decide)) rfl rfl
  refine ⟨out, hout, by rw [hcount]; rfl, by rw [hmiss]; decide⟩

/-- C5: a requeue-mode run with a falsy destination raises the
configuration error before any store listing or catalog lookup: the run
result is the error alone, with no event trace. -/
theorem audit_requeue_no_dest_fails (cfg : AuditConfig) (es : String → EsResp)
    (listing : List S3Obj) (hfmt : cfg.format = "mock-s3")
    (hout : pyTruthy cfg.output_file = false) :
    audit cfg es listing =
      Except.error "Output file MUST be defined with mock-s3 output format" := by
  unfold audit
  rw [if_pos ⟨hfmt, hout⟩]

/-- C5 witness: requeue mode with no destination fails on any listing. -/
theorem audit_requeue_no_dest_fails_witness :
    audit cfgRequeueNoDest (fun _ => EsResp.found) [⟨"a"⟩] =
      Except.error "Output file MUST be defined with mock-s3 output format" :=
  audit_requeue_no_dest_fails cfgRequeueNoDest (fun _ => EsResp.found) [⟨"a"⟩]
    rfl rfl

/-- C8: `audit` is determined by the listing and the per-id lookup results:
two runs whose lookup functions agree on the document id of every listed
key produce identical results, in particular identical `MissingKeySet`
contents in identical order. -/
theorem audit_lookup_determined (cfg : AuditConfig) (es1 es2 : String → EsResp)
    (listing : List S3Obj)
    (h : ∀ o ∈ listing,
      es1 (effIdPrefix cfg.bucket cfg.id_prefix_env ++ o.key) =
        es2 (effIdPrefix cfg.bucket cfg.id_prefix_env ++ o.key)) :
    audit cfg es1 listing = audit cfg es2 listing := by
  unfold audit
  by_cases hguard : cfg.format = "mock-s3" ∧ pyTruthy cfg.output_file = false
  · rw [if_pos hguard, if_pos hguard]
  · rw [if_neg hguard, if_neg hguard]
    have hl := auditLoop_congr es1 es2 (effIdPrefix cfg.bucket cfg.id_prefix_env)
      cfg.lambda_ctx (listing.drop (startIndex cfg.resume_from_key listing)) 0
      (fun o ho => h o (List.mem_of_mem_drop ho))
    simp only [hl]

/-- C8 witness: two lookup functions differing away from the listed key but
agreeing on it give identical runs. -/
theorem audit_lookup_determined_witness :
    audit cfgPlainF esFoundAElseErr [⟨"a"⟩] =
      audit cfgPlainF esFoundAElseNone [⟨"a"⟩] :=
  audit_lookup_determined cfgPlainF esFoundAElseErr esFoundAElseNone [⟨"a"⟩]
    (by decide)

/-- C3, against the code: with the resume cursor `b` present among the
listed keys, a fresh run still processes the whole listing from the
beginning, key `a` included, because the membership test of line 145
compares the string cursor with listing dictionaries and is always false
in CPython. The claim requires only `b` to be processed. -/
theorem audit_resume_cursor_ignored :
    audit cfgResumeB (fun _ => EsResp.raiseNotFound) [⟨"a"⟩, ⟨"b"⟩] = Except.ok
      { count := 2, errorCount := 2, missing := ["a", "b"], resumeKey := none,
        events := [Ev.listObjects "B" "p/", Ev.esGet "s3://B/a",
          Ev.esGet "s3://B/b"] }
    ∧ pyStrEqObj "b" ⟨"b"⟩ = false := by
  exact ⟨by decide, rfl⟩

/-- A run under a host context that suspends at boundary `i`: the first `i`
keys are processed normally, the `i`-th key becomes the resume cursor, and
nothing after the boundary is looked up. `i0` is the number of boundary
checks made before this slice. -/
theorem auditLoop_suspend (es : String → EsResp) (p : String) (c : LambdaCtx) :
    ∀ (keys : List S3Obj) (i0 i : Nat), i < keys.length →
      (∀ j, j < i → ¬(c.remaining (i0 + j) < 60 * 1000)) →
      c.remaining (i0 + i) < 60 * 1000 →
      auditLoop es p (some c) keys i0 =
        ⟨i, errsOf es p (keys.take i), missingOf es p (keys.take i),
         some ((keys.getD i default).key),
         (keys.take i).map (fun o => Ev.esGet (p ++ o.key))⟩ := by
  intro keys
  induction keys with
  | nil => intro i0 i hi _ _; exact absurd hi (by simp)
  | cons o rest ih =>
      intro i0 i hi hok hlow
      cases i with
      | zero =>
          have hl : c.remaining i0 < 60 * 1000 := by simpa using hlow
          simp [auditLoop, timeLow, hl, errsOf, missingOf]
      | succ n =>
          have ht : timeLow (some c) i0 = false := by
            have hge := hok 0 (by omega)
            simp only [timeLow, decide_eq_false_iff_not]
            simpa using hge
          have hok2 : ∀ j, j < n → ¬(c.remaining ((i0 + 1) + j) < 60 * 1000) := by
            intro j hj
            have h1 := hok (j + 1) (by omega)
            have harith : i0 + (j + 1) = (i0 + 1) + j := by omega
            rwa [harith] at h1
          have hlow2 : c.remaining ((i0 + 1) + n) < 60 * 1000 := by
            have harith : i0 + (n + 1) = (i0 + 1) + n := by omega
            rwa [harith] at hlow
          have hrec := ih (i0 + 1) n (by simpa using Nat.lt_of_succ_lt_succ hi)
            hok2 hlow2
          by_cases h : isMissingResp (es (p ++ o.key)) <;>
            simp [auditLoop, ht, hrec, errsOf, missingOf, List.countP_cons,
              List.filter_cons, List.take_succ_cons, List.getD_cons_succ, h]

/-- C4: in a bounded-time host, when the remaining budget first drops below
60 seconds at the boundary before item `i`, the run stops looking keys up
at item `i` (its lookup events cover exactly the first `i` keys), the
resume cursor equals the key of item `i`, the missing keys accumulated
from the items before `i` reach the configured Result Sink, and only
after the sink events does the asynchronous re-invocation carrying the
cursor fire. -/
theorem audit_suspend_delivers (cfg : AuditConfig) (es : String → EsResp)
    (listing : List S3Obj) (c : LambdaCtx) (i : Nat)
    (hguard : ¬(cfg.format = "mock-s3" ∧ pyTruthy cfg.output_file = false))
    (hres : cfg.resume_from_key = none) (hctx : cfg.lambda_ctx = some c)
    (hi : i < listing.length)
    (hok : ∀ j, j < i → ¬(c.remaining j < 60 * 1000))
    (hlow : c.remaining i < 60 * 1000) :
    audit cfg es listing = Except.ok
      { count := i
        errorCount := errsOf es (effIdPrefix cfg.bucket cfg.id_prefix_env)
          (listing.take i)
        missing := missingOf es (effIdPrefix cfg.bucket cfg.id_prefix_env)
          (listing.take i)
        resumeKey := some ((listing.getD i default).key)
        events := Ev.listObjects cfg.bucket (effPathPrefix cfg.pathPrefixEnv)
          :: ((listing.take i).map fun o =>
                Ev.esGet (effIdPrefix cfg.bucket cfg.id_prefix_env ++ o.key))
          ++ sinkEvents cfg
              (missingOf es (effIdPrefix cfg.bucket cfg.id_prefix_env)
                (listing.take i))
          ++ [Ev.invokeLambda c.function_name
               (dumps (Json.obj
                 [("ResumeFromKey", Json.str ((listing.getD i default).key))]))] } := by
  unfold audit
  rw [if_neg hguard, hres, hctx]
  have hloop := auditLoop_suspend es (effIdPrefix cfg.bucket cfg.id_prefix_env) c
    listing 0 i hi (by intro j hj; simpa using hok j hj) (by simpa using hlow)
  simp only [startIndex, List.drop_zero, hloop]
  simp [invokeEvents, hctx]

/-- C4 witness: two keys under a host context with 100 seconds left at the
first boundary and none at the second: key `a` is processed, key `b`
becomes the cursor, the still-empty report is written before the
re-invocation event. -/
theorem audit_suspend_delivers_witness :
    audit cfgTimed (fun _ => EsResp.found) [⟨"a"⟩, ⟨"b"⟩] = Except.ok
      { count := 1, errorCount := 0, missing := [], resumeKey := some "b",
        events := [Ev.listObjects "B" "p/", Ev.esGet "s3://B/a",
          Ev.fileWrite "F" "",
          Ev.invokeLambda "auditFn" "\x7b\"ResumeFromKey\": \"b\"\x7d"] } := by
  have h := audit_suspend_delivers cfgTimed (fun _ => EsResp.found)
    [⟨"a"⟩, ⟨"b"⟩] ctxTight 1
    (by intro hcon; exact absurd hcon.1 (by decide)) rfl rfl (by decide)
    (by intro j hj
        have hj0 : j = 0 := by omega
        subst hj0
        decide)
    (by decide)
  rw [h]
  decide

/-- Requeue mode sends one SQS message per missing key, in order, on the
destination queue, then publishes the summary exactly when the topic is
truthy. -/
theorem sinkEvents_requeue (cfg : AuditConfig) (missing : List String)
    (q : String) (hfmt : cfg.format = "mock-s3")
    (hout : cfg.output_file = some q) :
    sinkEvents cfg missing =
      missing.map (fun k => Ev.sqsSend q (dumps (s3EventJson k cfg.bucket)))
      ++ (if pyTruthy cfg.sns_topic then
            [Ev.snsPublish (cfg.sns_topic.getD "")
              ("Parquet stats audit found " ++ commaFmt missing.length
                ++ " missing keys. Trying to republish to SQS.")
              "Insitu audit"]
          else []) := by
  simp [sinkEvents, hfmt, hout, key_to_sqs_msg]

/-- C6: in requeue mode with destination queue `q`, the run enqueues
exactly one message per missing key, in order, each being the
`json.dumps` serialization of
`Records: [eventName: ObjectCreated:Put, s3: bucket/name, object/key]`
with the run bucket and that key; the summary notification is published
exactly when a topic is configured (truthy), and only after every per-key
message. -/
theorem audit_requeue_messages (cfg : AuditConfig) (es : String → EsResp)
    (listing : List S3Obj) (q : String)
    (hfmt : cfg.format = "mock-s3") (hout : cfg.output_file = some q)
    (hq : q ≠ "") (hres : cfg.resume_from_key = none)
    (hctx : cfg.lambda_ctx = none) :
    audit cfg es listing = Except.ok
      { count := listing.length
        errorCount := errsOf es (effIdPrefix cfg.bucket cfg.id_prefix_env) listing
        missing := missingOf es (effIdPrefix cfg.bucket cfg.id_prefix_env) listing
        resumeKey := none
        events := Ev.listObjects cfg.bucket (effPathPrefix cfg.pathPrefixEnv)
          :: (listing.map fun o =>
                Ev.esGet (effIdPrefix cfg.bucket cfg.id_prefix_env ++ o.key))
          ++ ((missingOf es (effIdPrefix cfg.bucket cfg.id_prefix_env)
                listing).map (fun k =>
                  Ev.sqsSend q (dumps (s3EventJson k cfg.bucket))))
          ++ (if pyTruthy cfg.sns_topic then
                [Ev.snsPublish (cfg.sns_topic.getD "")
                  ("Parquet stats audit found "
                    ++ commaFmt (missingOf es
                        (effIdPrefix cfg.bucket cfg.id_prefix_env) listing).length
                    ++ " missing keys. Trying to republish to SQS.")
                  "Insitu audit"]
              else []) } := by
  have hguard : ¬(cfg.format = "mock-s3" ∧ pyTruthy cfg.output_file = false) := by
    intro hcon
    rw [hout] at hcon
    have : pyTruthy (some q) = true := by simp [pyTruthy, hq]
    rw [this] at hcon
    exact absurd hcon.2 (by decide)
  rw [audit_ok_eval cfg es listing hguard hres hctx,
    sinkEvents_requeue cfg _ q hfmt hout]
  simp [List.append_assoc]

/-- C6 witness: one missing key, destination `Q`, topic `T`: one SQS
message with the exact serialized event, then one summary notification. -/
theorem audit_requeue_messages_witness :
    audit cfgRequeueQ (fun _ => EsResp.raiseNotFound) [⟨"a"⟩] = Except.ok
      { count := 1, errorCount := 1, missing := ["a"], resumeKey := none,
        events := [Ev.listObjects "B" "p/", Ev.esGet "s3://B/a",
          Ev.sqsSend "Q" "\x7b\"Records\": [\x7b\"eventName\": \"ObjectCreated:Put\", \"s3\": \x7b\"bucket\": \x7b\"name\": \"B\"\x7d, \"object\": \x7b\"key\": \"a\"\x7d\x7d\x7d]\x7d",
          Ev.snsPublish "T"
            "Parquet stats audit found 1 missing keys. Trying to republish to SQS."
            "Insitu audit"] } := by
  have h := audit_requeue_messages cfgRequeueQ (fun _ => EsResp.raiseNotFound)
    [⟨"a"⟩] "Q" rfl rfl (by decide) rfl rfl
  rw [h]
  decide

/-- Appending a slash makes the last character a slash. -/
theorem lastChar_concat_slash (s : String) : lastChar (s ++ "/") = some '/' := by
  unfold lastChar
  rw [String.data_append]
  have hd : ("/" : String).data = ['/'] := rfl
  rw [hd]
  exact List.getLast?_concat _

/-- A string with a slash appended is nonempty. -/
theorem concat_slash_ne_empty (s : String) : s ++ "/" ≠ "" := by
  intro h
  have h2 := congrArg String.data h
  rw [String.data_append] at h2
  have hd : ("/" : String).data = ['/'] := rfl
  rw [hd] at h2
  simp at h2

/-- `append_slash` is idempotent on strings. -/
theorem append_slash_idem (s : String) :
    append_slash (append_slash (some s)) = append_slash (some s) := by
  unfold append_slash
  by_cases h0 : s = ""
  · simp [h0]
  · by_cases h1 : lastChar s = some '/'
    · simp [h0, h1]
    · simp [h0, h1, concat_slash_ne_empty, lastChar_concat_slash]

/-- Concatenation with a fixed left part is injective on the right part. -/
theorem string_append_left_cancel {p k1 k2 : String} (h : p ++ k1 = p ++ k2) :
    k1 = k2 := by
  have hd := congrArg String.data h
  rw [String.data_append, String.data_append] at hd
  have hc := List.append_cancel_left hd
  cases k1 with
  | mk l1 =>
      cases k2 with
      | mk l2 => exact congrArg String.mk hc

/-- A nonempty normalized id prefix ends in a slash. -/
theorem effIdPrefix_ends_slash (b : String) (env : Option String)
    (hne : effIdPrefix b env ≠ "") :
    lastChar (effIdPrefix b env) = some '/' := by
  unfold effIdPrefix append_slash at *
  by_cases h0 : env.getD ("s3://" ++ b ++ "/") = ""
  · rw [h0] at hne ⊢
    simp at hne
  · by_cases h1 : lastChar (env.getD ("s3://" ++ b ++ "/")) = some '/'
    · simp [h0, h1]
    · simp [h0, h1, lastChar_concat_slash]

/-- C7 counterexample: with `OPENSEARCH_ID_PREFIX` set to the empty string,
`append_slash` leaves it empty, so the normalized id prefix used for every
lookup does NOT end with the separator — the claimed guarantee of a
trailing slash fails on this configuration. -/
theorem effIdPrefix_empty_no_slash_cex :
    effIdPrefix "bkt" (some "") = ""
    ∧ ¬ lastChar (effIdPrefix "bkt" (some "")) = some '/' := by
  exact ⟨rfl, by decide⟩

/-- C7 amended: the document id of every lookup is the normalized id prefix
concatenated with the object key; whenever the normalized prefix is
nonempty it ends with the separator (the empty string, permitted by
`append_slash`, is the one exception); the normalization is idempotent;
and with the prefix fixed the derivation is injective, so no two distinct
keys map to the same document id. -/
theorem doc_id_derivation (b : String) (env : Option String)
    (s p k1 k2 : String) (es : String → EsResp) (keys : List S3Obj) (i : Nat)
    (hne : effIdPrefix b env ≠ "") (heq : p ++ k1 = p ++ k2) :
    lastChar (effIdPrefix b env) = some '/'
    ∧ append_slash (append_slash (some s)) = append_slash (some s)
    ∧ k1 = k2
    ∧ (auditLoop es (effIdPrefix b env) none keys i).events =
        keys.map (fun o => Ev.esGet (effIdPrefix b env ++ o.key)) :=
  ⟨effIdPrefix_ends_slash b env hne, append_slash_idem s,
   string_append_left_cancel heq,
   by rw [auditLoop_no_ctx]⟩

/-- C7 amended witness: the default prefix derived from bucket `B` is
nonempty and slash-terminated, normalization is idempotent on `x`, and
equal ids from the fixed prefix `s3://B/` force equal keys. -/
theorem doc_id_derivation_witness :
    lastChar (effIdPrefix "B" none) = some '/'
    ∧ append_slash (append_slash (some "x")) = append_slash (some "x")
    ∧ "a" = "a"
    ∧ (auditLoop (fun _ => EsResp.found) (effIdPrefix "B" none) none
        [⟨"a"⟩] 0).events =
        [⟨"a"⟩].map (fun o : S3Obj => Ev.esGet (effIdPrefix "B" none ++ o.key)) :=
  doc_id_derivation "B" none "x" "s3://B/" "a" "a" (fun _ => EsResp.found)
    [⟨"a"⟩] 0 (by decide) rfl

end AuditTool

namespace Indexer

/-- C9: the catalog actions of one `ParquetFileEsIndexer.start` call are
the per-record classification of the claim, applied in order: a record
whose URL contains `spark-staging` or `_temporary` yields no action; an
event name starting with `objectcreated` after strip and lowercase yields
the upsert of the document for that file; one starting with
`objectremoved` yields the deletion of the document whose id is the file
S3 URL; anything else yields no catalog change. -/
theorem indexer_start_actions (records : List S3Record) :
    start records = records.filterMap recordActionSpec := by
  induction records with
  | nil => rfl
  | cons r rest ih =>
      simp only [start, recordActionSpec, List.filterMap_cons]
      by_cases hskip : (ignoring_phrases.any (fun k => pyInStr k r.s3_url)) = true
      · simp [hskip, ih]
      · by_cases hc :
          pyStartsWith (pyLower (pyStrip r.eventName)) "objectcreated" = true
        · simp [hskip, hc, ih]
        · by_cases hr :
            pyStartsWith (pyLower (pyStrip r.eventName)) "objectremoved" = true
          · simp [hskip, hc, hr, ih]
          · simp [hskip, hc, hr, ih]

end Indexer

namespace Authenticator

/-- C10: `authenticate` returns `None` exactly when the input holds an
`Authorization` entry whose value decodes to the stored token; in every
other case it returns an error message without raising; it never changes
the stored token, which `__init__` sets to the empty string. -/
theorem authenticate_spec (b64decode : String → Option String)
    (st : AuthState) (input : List (String × String)) :
    ((authenticate b64decode st input).1 = none ↔
      ∃ a, input.lookup "Authorization" = some a ∧ b64decode a = some st.token)
    ∧ (authenticate b64decode st input).2 = st
    ∧ initState.token = "" := by
  refine ⟨?_, ?_, rfl⟩
  · cases hl : input.lookup "Authorization" with
    | none => simp [authenticate, hl]
    | some a =>
        cases hd : b64decode a with
        | none => simp [authenticate, hl, hd]
        | some v =>
            by_cases hv : v = st.token <;>
              simp [authenticate, hl, hd, hv]
  · cases hl : input.lookup "Authorization" with
    | none => simp [authenticate, hl]
    | some a =>
        cases hd : b64decode a with
        | none => simp [authenticate, hl, hd]
        | some v =>
            by_cases hv : v = st.token <;>
              simp [authenticate, hl, hd, hv]

end Authenticator
